import Mathlib

set_option maxRecDepth 100000

/-!
# xv6 mmap subsystem (`kernel/mmap.c`): shallow embedding and verified properties

The C functions `vmaalloc`, `vmaclose`, `mmap` and `test_munmap` are embedded as
pure functions over an explicit kernel state.

* `uint64` values are `Nat` with explicit reduction modulo `2^64`.
* `int` values are `Int`; conversions to and from `uint64` are explicit
  (`toU64`, `toI32`), and `int` arithmetic results are wrapped by `wrapI32`.
* A pointer into `vmatable.vma` is the index of the slot; the null pointer is `none`.
* `panic` halts the kernel: the embedding keeps the state reached at the panic
  and reports the panic message as the outcome.
-/

namespace Mmap

/-! ## Machine integers -/

/-- The largest `uint64`, the value of `(uint64)-1`. -/
def U64_MAX : Nat := 18446744073709551615

/-- Addition of two `uint64` values. -/
def u64add (a b : Nat) : Nat := (a + b) % 18446744073709551616

/-- Subtraction of two `uint64` values. -/
def u64sub (a b : Nat) : Nat := (a + 18446744073709551616 - b % 18446744073709551616) % 18446744073709551616

/-- Conversion of a C `int` to `uint64` (sign extension, value modulo `2^64`). -/
def toU64 (x : Int) : Nat := (x % 18446744073709551616).toNat

/-- Conversion of a `uint64` to a C `int` (low 32 bits, two's complement). -/
def toI32 (n : Nat) : Int :=
  if n % 4294967296 < 2147483648 then ((n % 4294967296 : Nat) : Int)
  else ((n % 4294967296 : Nat) : Int) - 4294967296

/-- The result of `int` arithmetic, reduced to the 32-bit two's complement range. -/
def wrapI32 (x : Int) : Int := toI32 (x % 4294967296).toNat

/-- The bit pattern of a C `int`, used for the bitwise operators `&` and `|`. -/
def bits32 (x : Int) : Nat := (x % 4294967296).toNat

/-- A value is representable as a C `int`. -/
def IsInt (x : Int) : Prop := -2147483648 ≤ x ∧ x < 2147483648

instance (x : Int) : Decidable (IsInt x) := by unfold IsInt; infer_instance

/-! ## Constants of the headers (`riscv.h`, `fcntl.h`), which the source includes -/

/-- Modelled from the spec: `PGSIZE` of riscv.h, the fixed page size of 4096
bytes. -/
def PGSIZE : Nat := 4096

/-- Modelled from the spec: `PGROUNDUP(sz)` of riscv.h,
`(sz + PGSIZE - 1) & ~(PGSIZE - 1)` in `uint64`: rounding up to a page boundary. -/
def PGROUNDUP (sz : Nat) : Nat := ((sz + 4096 - 1) % 18446744073709551616) &&& 18446744073709547520

/-- Modelled from the spec: `PGROUNDDOWN(a)` of riscv.h,
`a & ~(PGSIZE - 1)` in `uint64`: rounding down to a page boundary. -/
def PGROUNDDOWN (a : Nat) : Nat := (a % 18446744073709551616) &&& 18446744073709547520

/-- Modelled from the spec: page-table entry valid bit `PTE_V` of riscv.h. -/
def PTE_V : Nat := 1
/-- Modelled from the spec: page-table entry read bit `PTE_R` of riscv.h. -/
def PTE_R : Nat := 2
/-- Modelled from the spec: page-table entry write bit `PTE_W` of riscv.h. -/
def PTE_W : Nat := 4
/-- Modelled from the spec: page-table entry execute bit `PTE_X` of riscv.h. -/
def PTE_X : Nat := 8
/-- Modelled from the spec: page-table entry user bit `PTE_U` of riscv.h. -/
def PTE_U : Nat := 16
/-- Modelled from the spec: the software-defined bit `PTE_MMAP` that tags an entry
as reserved for a pending mapping (one of the bits reserved for software). -/
def PTE_MMAP : Nat := 256
/-- Modelled from the spec: `PTE_FLAGS(pte)` of riscv.h, the low ten bits. -/
def PTE_FLAGS (pte : Nat) : Nat := pte &&& 1023

/-- Modelled from the spec: `PTE2PA(pte)` of riscv.h, the physical address of the
frame an entry points to, `(pte >> 10) << 12`. -/
def PTE2PA (pte : Nat) : Nat := (pte >>> 10) <<< 12

/-- Modelled from the spec: protection bit Read, `PROT_READ` of fcntl.h. -/
def PROT_READ : Nat := 1
/-- Modelled from the spec: protection bit Write, `PROT_WRITE` of fcntl.h. -/
def PROT_WRITE : Nat := 2
/-- Modelled from the spec: protection bit Execute, `PROT_EXEC` of fcntl.h. -/
def PROT_EXEC : Nat := 4
/-- Modelled from the spec: mapping kind Shared, `MAP_SHARED` of fcntl.h. -/
def MAP_SHARED : Nat := 1
/-- Modelled from the spec: mapping kind Private, `MAP_PRIVATE` of fcntl.h. -/
def MAP_PRIVATE : Nat := 2

/-! ## Data model -/

/-- The part of `struct file` (file.h) that mmap.c reads: the `writable` flag and
the inode pointer `ip` (here the inode number). -/
structure File where
  writable : Nat
  ip : Nat
deriving DecidableEq, Repr

/-- Modelled from the spec: `struct vma` is declared in a header outside mmap.c.
The fields are the ones mmap.c reads and writes; `addr` is a `uint64`
(line 106), `length` an `int` (line 107), `prot`, `flags` and `offset` are `int`
like the parameters of `mmap`, `fp` is a `struct file*` (`none` is the null pointer). -/
structure Vma where
  valid : Int
  addr : Nat
  length : Int
  prot : Int
  flags : Int
  fp : Option File
  offset : Int
deriving DecidableEq, Repr

/-- A page table as `walk(pagetable, va, 0)` observes it: the contents of the entry
for the page at `va`, or `none` when `walk` returns the null pointer (`walk` is a
function of vm.c; a panic inside `walk` itself is outside this embedding). -/
abbrev PageTable := Nat → Option Nat

/-- The signature of `uvmalloc_lazy(pagetable, oldsz, newsz, perm)`, a function of
vm.c: it yields the page table it leaves and the size it returns
(0 on failure). The embedding of `mmap` takes it as a parameter. -/
abbrev UvmallocLazy := PageTable → Nat → Nat → Nat → PageTable × Nat

/-- The calls into the rest of the kernel whose effects lie outside mmap.c; they are
recorded in the order they are made. -/
inductive Call where
  | uvmalloc_lazy (oldsz newsz perm : Nat)
  | fileclose (f : Option File)
deriving DecidableEq, Repr

/-- The part of `struct proc` that mmap.c uses: `sz` and `pagetable`. -/
structure Proc where
  sz : Nat
  pagetable : PageTable

/-- The kernel state around mmap.c: the global `vmatable.vma`, the current process
`myproc()`, physical memory (byte at a physical address), the contents of the files
on disk (byte at an offset of an inode) and the record of external calls. -/
structure Kernel where
  vmatable : List Vma
  proc : Proc
  mem : Nat → Nat
  fileData : Nat → Nat → Nat
  calls : List Call

/-- How a call ends: it returns a value, or it stops in `panic` with a message. -/
inductive Outcome where
  | ret (v : Int)
  | panic (msg : String)
deriving DecidableEq, Repr

/-! ## `vmaalloc` (lines 21-36) -/

/-- The `for` loop of `vmaalloc` over the slots from a given one on: the first slot
with `valid == 0` gets `valid = 1`; the result is its index (relative to the start)
and the updated slots, or `none` when every slot is in use. -/
def vmaalloc_scan : List Vma → Option (Nat × List Vma)
  | [] => none
  | v :: vs =>
    if v.valid = 0 then some (0, { v with valid := 1 } :: vs)
    else
      match vmaalloc_scan vs with
      | none => none
      | some (i, vs') => some (i + 1, v :: vs')

/-- The function `vmaalloc()`: the pointer returned is the index of the slot, the
null pointer is `none`. -/
def vmaalloc (k : Kernel) : Kernel × Option Nat :=
  match vmaalloc_scan k.vmatable with
  | none => (k, none)
  | some (i, t) => ({ k with vmatable := t }, some i)

/-! ## `vmaclose` (lines 38-48) -/

/-- The assignments of `vmaclose` to the fields of `*ma`. -/
def vmaclose_fields (v : Vma) : Vma :=
  { v with fp := none, addr := 0, flags := 0, prot := 0, length := 0, offset := 0 }

/-- The function `vmaclose(ma)`, `ma` pointing to slot `ma` of the table:
`fileclose(ma->fp)` and then the field assignments. An index outside the table is
not a `struct vma*`; the state is left as it is. -/
def vmaclose (k : Kernel) (ma : Nat) : Kernel :=
  match k.vmatable[ma]? with
  | none => k
  | some v =>
    { k with
      calls := k.calls ++ [Call.fileclose v.fp]
      vmatable := k.vmatable.set ma (vmaclose_fields v) }

/-! ## `mmap` (lines 52-77) -/

/-- The test of line 60: `(prot & PROT_WRITE) && (flags & MAP_SHARED) && !f->writable`. -/
def mmap_rejects (f : File) (prot flags : Int) : Bool :=
  (bits32 prot &&& PROT_WRITE != 0) && (bits32 flags &&& MAP_SHARED != 0) && (f.writable == 0)

/-- The page permissions of line 67. -/
def mmap_perm (prot : Int) : Nat :=
  (if bits32 prot &&& PROT_WRITE != 0 then PTE_W else 0)
    ||| (if bits32 prot &&& PROT_EXEC != 0 then PTE_X else 0)
    ||| (if bits32 prot &&& PROT_READ != 0 then PTE_R else 0)

/-- The function `mmap(f, length, prot, flags, offset)` for the current process; the
result is the state it leaves and the `uint64` it returns (`U64_MAX` is `-1`). -/
def mmap (uvm : UvmallocLazy) (k : Kernel) (f : File) (length prot flags _offset : Int) :
    Kernel × Nat :=
  let oldsz := PGROUNDUP k.proc.sz
  if mmap_rejects f prot flags then (k, U64_MAX)
  else
    let perm := mmap_perm prot
    let newsz := u64add oldsz (toU64 length)
    let r := uvm k.proc.pagetable oldsz newsz (PTE_MMAP ||| perm ||| PTE_U)
    let k1 : Kernel :=
      { k with
        proc := { k.proc with pagetable := r.1 }
        calls := k.calls ++ [Call.uvmalloc_lazy oldsz newsz (PTE_MMAP ||| perm ||| PTE_U)] }
    if r.2 = 0 then (k1, 0)
    else ({ k1 with proc := { k1.proc with sz := PGROUNDUP r.2 } }, oldsz)

/-- The call `mmap` reaches `return oldsz` (line 76): neither the test of line 60
nor the failure of `uvmalloc_lazy` (line 70) makes it return early. -/
def mmap_succeeds (uvm : UvmallocLazy) (k : Kernel) (f : File) (length prot flags : Int) : Prop :=
  mmap_rejects f prot flags = false ∧
    (uvm k.proc.pagetable (PGROUNDUP k.proc.sz) (u64add (PGROUNDUP k.proc.sz) (toU64 length))
      (PTE_MMAP ||| mmap_perm prot ||| PTE_U)).2 ≠ 0

instance (uvm : UvmallocLazy) (k : Kernel) (f : File) (length prot flags : Int) :
    Decidable (mmap_succeeds uvm k f length prot flags) := by
  unfold mmap_succeeds; infer_instance

/-! ## `test_munmap` (lines 102-165) -/

/-- The `while` loop of lines 134-156 over the pages of `[addr, addr + length)`:
it reads the page table and changes nothing; it ends normally (`none`) or in one of
its two panics. -/
def munmap_pages (pt : PageTable) (addr : Nat) (length : Int) : Option String :=
  if 0 < length then
    let va0 := PGROUNDDOWN addr
    let n0 := u64sub 4096 (u64sub addr va0)
    let n := if n0 > toU64 length then toU64 length else n0
    match pt va0 with
    | none => some "test_munmap: walk"
    | some pte =>
      if PTE_FLAGS pte = PTE_V then some "test_munmap: not leaf"
      else
        munmap_pages pt (u64add va0 4096) (toI32 (u64sub (toU64 length) n))
  else none
termination_by length.toNat
decreasing_by
  have hva : PGROUNDDOWN addr = 4096 * (addr % 18446744073709551616 / 4096) := by
    unfold PGROUNDDOWN
    apply Nat.eq_of_testBit_eq
    intro i
    have hx : addr % 18446744073709551616 < 2 ^ 64 := by
      have : (2 : Nat) ^ 64 = 18446744073709551616 := by norm_num
      rw [this]; exact Nat.mod_lt _ (by norm_num)
    have hm : (18446744073709547520 : Nat) = 2 ^ 12 * (2 ^ 52 - 1) := by norm_num
    have h4 : (4096 : Nat) = 2 ^ 12 := by norm_num
    rw [Nat.testBit_and, hm, h4, Nat.testBit_mul_pow_two, Nat.testBit_mul_pow_two,
      Nat.testBit_two_pow_sub_one, ← Nat.shiftRight_eq_div_pow, Nat.testBit_shiftRight]
    by_cases h12 : 12 ≤ i
    · have e : 12 + (i - 12) = i := by omega
      by_cases h64 : i < 64
      · have : i - 12 < 52 := by omega
        simp [h12, this, e]
      · have hb : (addr % 18446744073709551616).testBit i = false :=
          Nat.testBit_lt_two_pow
            (Nat.lt_of_lt_of_le hx (Nat.pow_le_pow_right (by norm_num) (by omega)))
        simp [hb, e]
    · simp [h12]
  simp only [toI32, toU64, u64sub, hva]
  split <;> split <;> omega

/-- The update of the fields of `*vma` in lines 122-130, after the range checks. -/
def munmap_update (v : Vma) (addr : Nat) (length : Int) : Vma :=
  let vma_addr := v.addr
  let vma_length := v.length
  let vma_end := u64add vma_addr (toU64 vma_length)
  if addr = vma_addr then
    { v with
      addr := u64add addr (toU64 length)
      length := toI32 (u64sub vma_end (u64add addr (toU64 length)))
      offset := wrapI32 (v.offset + length) }
  else if u64add addr (toU64 length) = u64add vma_addr vma_end then
    { v with length := wrapI32 (vma_length - length) }
  else v

/-- The function `test_munmap(vma, addr, length)`, `vma` pointing to slot `vma` of
the table. The body of `if (*pte & PTE_V)` (line 149) and the body of
`if (vma->length == 0)` (line 158) are empty in the source and have no effect.
An index outside the table is not a `struct vma*`; the state is left as it is. -/
def test_munmap (k : Kernel) (vma : Nat) (addr : Nat) (length : Int) : Kernel × Outcome :=
  match k.vmatable[vma]? with
  | none => (k, Outcome.ret 0)
  | some v =>
    let vma_addr := v.addr
    let vma_end := u64add vma_addr (toU64 v.length)
    let sum := u64add addr (toU64 length)
    if sum < addr then (k, Outcome.panic "test_munmap: uint64 overflow")
    else if addr < vma_addr ∨ (addr > vma_addr ∧ sum < vma_end) ∨ addr ≥ vma_end ∨ sum > vma_end then
      (k, Outcome.panic "test_munmap: invalid addr range")
    else
      let k1 : Kernel := { k with vmatable := k.vmatable.set vma (munmap_update v addr length) }
      match munmap_pages k.proc.pagetable addr length with
      | some msg => (k1, Outcome.panic msg)
      | none => (k1, Outcome.ret 0)

/-- The function `filemap_sync(vma, va, pa)` (lines 167-170): it returns 0 and does
nothing else. -/
def filemap_sync (k : Kernel) (_vma : Nat) (_va _pa : Nat) : Kernel × Int := (k, 0)

/-! ## Runs of several calls -/

/-- The state after `n` consecutive calls of `vmaalloc`. -/
def vmaalloc_run : Nat → Kernel → Kernel
  | 0, k => k
  | n + 1, k => (vmaalloc (vmaalloc_run n k)).1

/-- The state after `n` consecutive calls of `mmap` with the same request. -/
def mmap_run (uvm : UvmallocLazy) (f : File) (length prot flags offset : Int) : Nat → Kernel → Kernel
  | 0, k => k
  | n + 1, k => (mmap uvm (mmap_run uvm f length prot flags offset n k) f length prot flags offset).1

/-! ## Sample states -/

/-- Modelled from the spec: `uvmalloc_lazy` of vm.c. Every
page of the range from `oldsz` to `newsz` becomes present-but-not-yet-backed: its
entry holds the permission bits with the valid bit clear. It returns `newsz`, or
`oldsz` when the range is empty. -/
def uvmalloc_lazy_model : UvmallocLazy := fun pt oldsz newsz perm =>
  if newsz < oldsz then (pt, oldsz)
  else (fun va => if oldsz ≤ va ∧ va < newsz ∧ va % 4096 = 0 then some perm else pt va, newsz)

/-- An `uvmalloc_lazy` that always fails (returns 0). -/
def uvmalloc_lazy_fail : UvmallocLazy := fun pt _ _ _ => (pt, 0)

/-- A file opened for writing. -/
def fileRW : File := { writable := 1, ip := 7 }

/-- A file opened read-only. -/
def fileRO : File := { writable := 0, ip := 8 }

/-- A free slot of the table. -/
def freeVma : Vma :=
  { valid := 0, addr := 0, length := 0, prot := 0, flags := 0, fp := none, offset := 0 }

/-- A shared, readable and writable mapping of three pages of `fileRW` at 8192. -/
def sharedVma : Vma :=
  { valid := 1, addr := 8192, length := 12288, prot := 3, flags := 1, fp := some fileRW, offset := 0 }

/-- The page table of the sample process: the three pages of `sharedVma` are
reserved (`PTE_MMAP | PTE_W | PTE_R | PTE_U`), and the second one has been faulted
in at physical address 524288 (`PTE_V` set). -/
def samplePageTable : PageTable := fun va =>
  if va = 8192 then some 278
  else if va = 12288 then some 131351
  else if va = 16384 then some 278
  else none

/-- Physical memory in which byte 1 of the frame at 524288 holds the marker 77. -/
def sampleMem : Nat → Nat := fun pa => if pa = 524289 then 77 else 0

/-- A kernel with sixteen slots, the first holding `sharedVma`, after a write of the
marker 77 to byte 4097 of the mapping; the file on disk holds zeros. -/
def sampleKernel : Kernel :=
  { vmatable := sharedVma :: List.replicate 15 freeVma
    proc := { sz := 20480, pagetable := samplePageTable }
    mem := sampleMem
    fileData := fun _ _ => 0
    calls := [] }

/-- A kernel whose sixteen slots are all free and whose process has the size 4097,
as after `sbrk(1)` on a one-page process. -/
def emptyKernel : Kernel :=
  { vmatable := List.replicate 16 freeVma
    proc := { sz := 4097, pagetable := fun _ => none }
    mem := fun _ => 0
    fileData := fun _ _ => 0
    calls := [] }

/-- The mapping `sharedVma` of a part of the file that starts at the page-aligned
offset 2147479552, one page below `2^31`. -/
def highOffsetVma : Vma := { sharedVma with offset := 2147479552 }

/-- The sample kernel with `highOffsetVma` in its first slot. -/
def highOffsetKernel : Kernel :=
  { sampleKernel with vmatable := highOffsetVma :: List.replicate 15 freeVma }

/-- A slot whose two pages start at the last page of the `uint64` range, so that
`addr + length` is `2^64 + 4096`. -/
def wrappingVma : Vma := { sharedVma with addr := 18446744073709547520, length := 8192 }

/-- The sample kernel with `wrappingVma` in its first slot. -/
def wrappingKernel : Kernel :=
  { sampleKernel with vmatable := wrappingVma :: List.replicate 15 freeVma }

/-- A kernel whose two slots are both in use. -/
def fullKernel : Kernel :=
  { vmatable := [sharedVma, { sharedVma with addr := 20480, length := 4096 }]
    proc := { sz := 24576, pagetable := samplePageTable }
    mem := sampleMem
    fileData := fun _ _ => 0
    calls := [] }

end Mmap

namespace Mmap

/-! ## Page rounding -/

theorem land_pagemask_mod (x : Nat) : (x &&& 18446744073709547520) % 4096 = 0 := by
  have h := Nat.and_pow_two_sub_one_eq_mod (x &&& 18446744073709547520) 12
  have h2 : (18446744073709547520 : Nat) &&& (2 ^ 12 - 1) = 0 := by decide
  rw [Nat.and_assoc, h2, Nat.and_zero] at h
  have h3 : (2 : Nat) ^ 12 = 4096 := by norm_num
  rw [h3] at h
  exact h.symm

theorem land_pagemask_eq (x : Nat) (hx : x < 18446744073709551616) :
    x &&& 18446744073709547520 = 4096 * (x / 4096) := by
  apply Nat.eq_of_testBit_eq
  intro i
  have hm : (18446744073709547520 : Nat) = 2 ^ 12 * (2 ^ 52 - 1) := by norm_num
  have h4 : (4096 : Nat) = 2 ^ 12 := by norm_num
  rw [Nat.testBit_and, hm, h4, Nat.testBit_mul_pow_two, Nat.testBit_mul_pow_two,
    Nat.testBit_two_pow_sub_one, ← Nat.shiftRight_eq_div_pow, Nat.testBit_shiftRight]
  by_cases h12 : 12 ≤ i
  · by_cases h64 : i < 64
    · have : i - 12 < 52 := by omega
      have e : 12 + (i - 12) = i := by omega
      simp [h12, this, e]
    · have hb : x.testBit i = false := by
        apply Nat.testBit_lt_two_pow
        calc x < 2 ^ 64 := by norm_num; exact hx
          _ ≤ 2 ^ i := Nat.pow_le_pow_right (by norm_num) (by omega)
      have e : 12 + (i - 12) = i := by omega
      simp [hb, e]
  · simp [h12]

end Mmap

namespace Mmap

/-! ## `vmaalloc` -/

theorem vmaalloc_scan_none (t : List Vma) :
    vmaalloc_scan t = none ↔ ∀ v ∈ t, v.valid ≠ 0 := by
  induction t with
  | nil => simp [vmaalloc_scan]
  | cons v vs ih =>
    unfold vmaalloc_scan
    by_cases hv : v.valid = 0
    · simp [hv]
    · cases hs : vmaalloc_scan vs with
      | none =>
        simp only [hv, if_false, List.mem_cons, forall_eq_or_imp, ne_eq, not_false_eq_true,
          true_and, true_iff]
        exact ih.mp hs
      | some r =>
        have hne : ¬ ∀ w ∈ vs, w.valid ≠ 0 := fun h => by
          rw [ih.mpr h] at hs; exact Option.noConfusion hs
        simp only [hv, if_false, List.mem_cons, forall_eq_or_imp, ne_eq, not_false_eq_true,
          true_and]
        constructor
        · intro h; exact Option.noConfusion h
        · intro h; exact absurd h hne

theorem vmaalloc_scan_some (t : List Vma) (i : Nat) (t' : List Vma)
    (h : vmaalloc_scan t = some (i, t')) :
    ∃ v, t[i]? = some v ∧ v.valid = 0 ∧
      (∀ j, j < i → ∀ w, t[j]? = some w → w.valid ≠ 0) ∧
      t' = t.set i { v with valid := 1 } := by
  induction t generalizing i t' with
  | nil => simp [vmaalloc_scan] at h
  | cons v vs ih =>
    unfold vmaalloc_scan at h
    by_cases hv : v.valid = 0
    · simp only [hv, if_true, Option.some.injEq, Prod.mk.injEq] at h
      obtain ⟨hi, ht⟩ := h
      subst hi
      refine ⟨v, by simp, hv, fun j hj => absurd hj (Nat.not_lt_zero j), ?_⟩
      simp [← ht]
    · simp only [hv, if_false] at h
      cases hs : vmaalloc_scan vs with
      | none => rw [hs] at h; exact Option.noConfusion h
      | some r =>
        obtain ⟨i0, t0⟩ := r
        rw [hs] at h
        simp only [Option.some.injEq, Prod.mk.injEq] at h
        obtain ⟨hi, ht⟩ := h
        obtain ⟨w, hw, hw0, hlow, hset⟩ := ih i0 t0 hs
        subst hi
        refine ⟨w, by simpa using hw, hw0, ?_, ?_⟩
        · intro j hj u hu
          cases j with
          | zero =>
            simp only [List.getElem?_cons_zero, Option.some.injEq] at hu
            subst hu; exact hv
          | succ j =>
            simp only [List.getElem?_cons_succ] at hu
            exact hlow j (by omega) u hu
        · simp [← ht, hset]

/-- Claim C9: for every state of the table, `vmaalloc` returns the null pointer if
and only if every slot has `valid != 0` (and then changes nothing); otherwise it
returns the lowest-indexed slot with `valid == 0`, sets that slot's `valid` to 1 and
leaves every other slot, every other field of the returned slot and the rest of the
kernel state unchanged. -/
theorem vmaalloc_first_free (k : Kernel) :
    ((vmaalloc k).2 = none ↔ ∀ v ∈ k.vmatable, v.valid ≠ 0) ∧
    ((vmaalloc k).2 = none → (vmaalloc k).1 = k) ∧
    (∀ i, (vmaalloc k).2 = some i →
      ∃ v, k.vmatable[i]? = some v ∧ v.valid = 0 ∧
        (∀ j, j < i → ∀ w, k.vmatable[j]? = some w → w.valid ≠ 0) ∧
        (vmaalloc k).1 = { k with vmatable := k.vmatable.set i { v with valid := 1 } }) := by
  unfold vmaalloc
  cases hs : vmaalloc_scan k.vmatable with
  | none =>
    refine ⟨?_, fun _ => rfl, fun i hi => ?_⟩
    · simp only [true_iff]; exact (vmaalloc_scan_none _).mp hs
    · exact Option.noConfusion hi
  | some r =>
    obtain ⟨i0, t0⟩ := r
    have hne : ¬ ∀ w ∈ k.vmatable, w.valid ≠ 0 := fun h => by
      rw [(vmaalloc_scan_none _).mpr h] at hs; exact Option.noConfusion hs
    refine ⟨?_, fun h => Option.noConfusion h, fun i hi => ?_⟩
    · constructor
      · intro h; exact Option.noConfusion h
      · intro h; exact absurd h hne
    · simp only [Option.some.injEq] at hi
      subst hi
      obtain ⟨w, hw, hw0, hlow, hset⟩ := vmaalloc_scan_some _ _ _ hs
      exact ⟨w, hw, hw0, hlow, by simp [hset]⟩

end Mmap

namespace Mmap

/-! ## Exhaustion of the table -/

theorem vmaalloc_scan_prefix (a : List Vma) (v : Vma) (b : List Vma)
    (ha : ∀ x ∈ a, x.valid ≠ 0) (hv : v.valid = 0) :
    vmaalloc_scan (a ++ v :: b) = some (a.length, a ++ { v with valid := 1 } :: b) := by
  induction a with
  | nil => simp [vmaalloc_scan, hv]
  | cons x xs ih =>
    have hx : x.valid ≠ 0 := ha x (List.mem_cons_self x xs)
    have hxs : ∀ y ∈ xs, y.valid ≠ 0 := fun y hy => ha y (List.mem_cons_of_mem x hy)
    rw [List.cons_append, vmaalloc_scan]
    simp [hx, ih hxs]

theorem vmaalloc_run_table (k : Kernel) (hfree : ∀ v ∈ k.vmatable, v.valid = 0) (i : Nat)
    (hi : i ≤ k.vmatable.length) :
    (vmaalloc_run i k).vmatable =
      (k.vmatable.take i).map (fun v => { v with valid := 1 }) ++ k.vmatable.drop i := by
  induction i with
  | zero => simp [vmaalloc_run]
  | succ i ih =>
    have hlt : i < k.vmatable.length := by omega
    have hprev := ih (by omega)
    have hdrop : k.vmatable.drop i = k.vmatable[i] :: k.vmatable.drop (i + 1) :=
      List.drop_eq_getElem_cons hlt
    have hused : ∀ x ∈ (k.vmatable.take i).map (fun v => { v with valid := (1 : Int) }),
        x.valid ≠ 0 := by
      intro x hx
      obtain ⟨y, _, rfl⟩ := List.mem_map.mp hx
      simp
    have hfreei : (k.vmatable[i]).valid = 0 := hfree _ (List.getElem_mem hlt)
    have hscan := vmaalloc_scan_prefix _ (k.vmatable[i]) (k.vmatable.drop (i + 1)) hused hfreei
    rw [← hdrop, ← hprev] at hscan
    simp only [vmaalloc_run, vmaalloc, hscan]
    rw [List.take_succ, List.getElem?_eq_getElem hlt, Option.toList_some, List.map_append,
      List.map_cons, List.map_nil, List.append_assoc, List.singleton_append]

theorem vmaalloc_run_next (k : Kernel) (hfree : ∀ v ∈ k.vmatable, v.valid = 0) (i : Nat)
    (hi : i < k.vmatable.length) : (vmaalloc (vmaalloc_run i k)).2 = some i := by
  have hprev := vmaalloc_run_table k hfree i (by omega)
  have hdrop : k.vmatable.drop i = k.vmatable[i] :: k.vmatable.drop (i + 1) :=
    List.drop_eq_getElem_cons hi
  have hused : ∀ x ∈ (k.vmatable.take i).map (fun v => { v with valid := (1 : Int) }),
      x.valid ≠ 0 := by
    intro x hx
    obtain ⟨y, _, rfl⟩ := List.mem_map.mp hx
    simp
  have hfreei : (k.vmatable[i]).valid = 0 := hfree _ (List.getElem_mem hi)
  have hscan := vmaalloc_scan_prefix _ (k.vmatable[i]) (k.vmatable.drop (i + 1)) hused hfreei
  rw [← hdrop, ← hprev] at hscan
  simp only [vmaalloc, hscan, List.length_map, List.length_take]
  congr 1
  omega

theorem vmaalloc_run_full (k : Kernel) (hfree : ∀ v ∈ k.vmatable, v.valid = 0) :
    (vmaalloc (vmaalloc_run k.vmatable.length k)).2 = none := by
  have htab := vmaalloc_run_table k hfree k.vmatable.length (Nat.le_refl _)
  have hnone : vmaalloc_scan (vmaalloc_run k.vmatable.length k).vmatable = none := by
    rw [vmaalloc_scan_none, htab]
    intro v hv
    simp only [List.take_length, List.drop_length, List.append_nil, List.mem_map] at hv
    obtain ⟨y, _, rfl⟩ := hv
    simp
  simp only [vmaalloc, hnone]

theorem mmap_vmatable (uvm : UvmallocLazy) (k : Kernel) (f : File)
    (length prot flags offset : Int) :
    (mmap uvm k f length prot flags offset).1.vmatable = k.vmatable := by
  unfold mmap
  simp only
  split
  · rfl
  · split <;> rfl

theorem mmap_run_vmatable (uvm : UvmallocLazy) (k : Kernel) (f : File)
    (length prot flags offset : Int) (n : Nat) :
    (mmap_run uvm f length prot flags offset n k).vmatable = k.vmatable := by
  induction n with
  | zero => rfl
  | succ n ih => rw [mmap_run, mmap_vmatable, ih]

end Mmap

namespace Mmap

/-! ## `mmap` -/

theorem PGROUNDUP_mod (sz : Nat) : PGROUNDUP sz % 4096 = 0 :=
  land_pagemask_mod _

theorem PGROUNDUP_eq (sz : Nat) :
    PGROUNDUP sz = 4096 * ((sz + 4096 - 1) % 18446744073709551616 / 4096) :=
  land_pagemask_eq _ (Nat.mod_lt _ (by norm_num))

theorem PGROUNDDOWN_eq (a : Nat) :
    PGROUNDDOWN a = 4096 * (a % 18446744073709551616 / 4096) :=
  land_pagemask_eq _ (Nat.mod_lt _ (by norm_num))

theorem mmap_ret_of_succeeds (uvm : UvmallocLazy) (k : Kernel) (f : File)
    (length prot flags offset : Int) (h : mmap_succeeds uvm k f length prot flags) :
    (mmap uvm k f length prot flags offset).2 = PGROUNDUP k.proc.sz := by
  obtain ⟨h1, h2⟩ := h
  unfold mmap
  simp only [h1, Bool.false_eq_true, if_false, h2]

theorem mmap_ret_cases (uvm : UvmallocLazy) (k : Kernel) (f : File)
    (length prot flags offset : Int) :
    (mmap uvm k f length prot flags offset).2 = U64_MAX ∨
    (mmap uvm k f length prot flags offset).2 = 0 ∨
    (mmap uvm k f length prot flags offset).2 = PGROUNDUP k.proc.sz := by
  unfold mmap
  simp only
  split
  · exact Or.inl rfl
  · split
    · exact Or.inr (Or.inl rfl)
    · exact Or.inr (Or.inr rfl)

theorem mmap_ret_aligned (uvm : UvmallocLazy) (k : Kernel) (f : File)
    (length prot flags offset : Int)
    (h : (mmap uvm k f length prot flags offset).2 ≠ U64_MAX) :
    (mmap uvm k f length prot flags offset).2 % PGSIZE = 0 := by
  rcases mmap_ret_cases uvm k f length prot flags offset with h1 | h1 | h1
  · exact absurd h1 h
  · rw [h1]; rfl
  · rw [h1]; exact PGROUNDUP_mod _

/-- Claim C1, as amended: on every process state and every request on which `mmap`
succeeds, the address returned is a multiple of `PGSIZE` and equals
`PGROUNDUP(p->sz)`, the high-water mark `p->sz` of before the call rounded up to the
next page boundary (the least multiple of `PGSIZE` that is at least `p->sz`, when
that does not overflow `uint64`); it equals `p->sz` itself when `p->sz` is a
multiple of `PGSIZE`. -/
theorem mmap_returns_rounded_sz (uvm : UvmallocLazy) (k : Kernel) (f : File)
    (length prot flags offset : Int) (h : mmap_succeeds uvm k f length prot flags) :
    (mmap uvm k f length prot flags offset).2 % PGSIZE = 0 ∧
    (mmap uvm k f length prot flags offset).2 = PGROUNDUP k.proc.sz ∧
    (k.proc.sz + 4095 < 18446744073709551616 →
      k.proc.sz ≤ (mmap uvm k f length prot flags offset).2 ∧
      (mmap uvm k f length prot flags offset).2 < k.proc.sz + PGSIZE) ∧
    (k.proc.sz < 18446744073709551616 → k.proc.sz % PGSIZE = 0 →
      (mmap uvm k f length prot flags offset).2 = k.proc.sz) := by
  rw [mmap_ret_of_succeeds uvm k f length prot flags offset h]
  refine ⟨PGROUNDUP_mod _, rfl, ?_, ?_⟩
  · intro hsz
    rw [PGROUNDUP_eq]
    unfold PGSIZE
    omega
  · intro hsz hal
    rw [PGROUNDUP_eq]
    unfold PGSIZE at hal
    omega

/-- Witness for `mmap_returns_rounded_sz`: a process of size 4097 maps one page of a
writable file and gets the address 8192. -/
theorem mmap_returns_rounded_sz_witness :
    mmap_succeeds uvmalloc_lazy_model emptyKernel fileRW 4096 3 1 ∧
    (mmap uvmalloc_lazy_model emptyKernel fileRW 4096 3 1 0).2 % PGSIZE = 0 ∧
    (mmap uvmalloc_lazy_model emptyKernel fileRW 4096 3 1 0).2 = PGROUNDUP emptyKernel.proc.sz :=
  ⟨by decide,
    (mmap_returns_rounded_sz uvmalloc_lazy_model emptyKernel fileRW 4096 3 1 0 (by decide)).1,
    (mmap_returns_rounded_sz uvmalloc_lazy_model emptyKernel fileRW 4096 3 1 0 (by decide)).2.1⟩

/-- Claim C1 fails as stated: the process has `p->sz = 4097`, `mmap` succeeds and
returns 8192, which is not the value of `p->sz` before the call. -/
theorem mmap_ret_ne_sz_counterexample :
    mmap_succeeds uvmalloc_lazy_model emptyKernel fileRW 4096 3 1 ∧
    emptyKernel.proc.sz = 4097 ∧
    (mmap uvmalloc_lazy_model emptyKernel fileRW 4096 3 1 0).2 = 8192 ∧
    (mmap uvmalloc_lazy_model emptyKernel fileRW 4096 3 1 0).2 ≠ emptyKernel.proc.sz := by
  decide

/-- Claim C2: for every length, offset and process state, `mmap` called with
`PROT_WRITE` set in `prot` and `MAP_SHARED` set in `flags` on a file whose `writable`
flag is clear returns -1 and leaves the whole state as it was: `p->sz` and the page
table are unchanged, no call of `uvmalloc_lazy` is made and no slot of the table is
claimed. -/
theorem mmap_rejects_shared_write_on_readonly (uvm : UvmallocLazy) (k : Kernel) (f : File)
    (length prot flags offset : Int)
    (hprot : bits32 prot &&& PROT_WRITE ≠ 0) (hflags : bits32 flags &&& MAP_SHARED ≠ 0)
    (hfile : f.writable = 0) :
    (mmap uvm k f length prot flags offset).2 = U64_MAX ∧
    (mmap uvm k f length prot flags offset).1 = k ∧
    (mmap uvm k f length prot flags offset).1.proc.sz = k.proc.sz ∧
    (mmap uvm k f length prot flags offset).1.calls = k.calls ∧
    (mmap uvm k f length prot flags offset).1.vmatable = k.vmatable := by
  have hrej : mmap_rejects f prot flags = true := by
    simp [mmap_rejects, hprot, hflags, hfile]
  unfold mmap
  simp only [hrej, if_true, and_self]

/-- Witness for `mmap_rejects_shared_write_on_readonly`: a shared, writable mapping
of the read-only file is asked for. -/
theorem mmap_rejects_shared_write_on_readonly_witness :
    (mmap uvmalloc_lazy_model emptyKernel fileRO 4096 3 1 0).2 = U64_MAX ∧
    (mmap uvmalloc_lazy_model emptyKernel fileRO 4096 3 1 0).1.calls = [] :=
  ⟨(mmap_rejects_shared_write_on_readonly uvmalloc_lazy_model emptyKernel fileRO 4096 3 1 0
      (by decide) (by decide) rfl).1,
   (mmap_rejects_shared_write_on_readonly uvmalloc_lazy_model emptyKernel fileRO 4096 3 1 0
      (by decide) (by decide) rfl).2.2.2.1⟩

theorem mmap_ret_vmatable_irrelevant (uvm : UvmallocLazy) (k : Kernel) (t : List Vma) (f : File)
    (length prot flags offset : Int) :
    (mmap uvm { k with vmatable := t } f length prot flags offset).2 =
      (mmap uvm k f length prot flags offset).2 := by
  unfold mmap
  simp only
  split
  · rfl
  · split <;> rfl

theorem mmap_table_frame (uvm : UvmallocLazy) (k : Kernel) (t : List Vma) (f : File)
    (length prot flags offset : Int) :
    mmap uvm { k with vmatable := t } f length prot flags offset =
      ({ (mmap uvm k f length prot flags offset).1 with vmatable := t },
        (mmap uvm k f length prot flags offset).2) := by
  unfold mmap
  simp only
  split
  · rfl
  · split <;> rfl

theorem mmap_succeeds_table_irrelevant (uvm : UvmallocLazy) (k : Kernel) (t : List Vma)
    (f : File) (length prot flags : Int) :
    mmap_succeeds uvm { k with vmatable := t } f length prot flags ↔
      mmap_succeeds uvm k f length prot flags := by
  unfold mmap_succeeds
  exact Iff.rfl

/-- Claim C5, as amended: `mmap` neither reads nor writes the table: every call of
`mmap`, and every run of calls, leaves the table unchanged, and replacing the table
by any other leaves the value `mmap` returns, whether it succeeds and the rest of
the state it produces the same. The exhaustion of the table is reported by
`vmaalloc`: starting from a table whose NVMA slots are all free, NVMA consecutive
calls of `vmaalloc` succeed, claiming the slots 0 to NVMA-1 in this order, and the
next call returns the null pointer. -/
theorem vmaalloc_exhaustion (uvm : UvmallocLazy) (k : Kernel) (f : File)
    (length prot flags offset : Int) (hfree : ∀ v ∈ k.vmatable, v.valid = 0) :
    (∀ i, i < k.vmatable.length → (vmaalloc (vmaalloc_run i k)).2 = some i) ∧
    (vmaalloc (vmaalloc_run k.vmatable.length k)).2 = none ∧
    (mmap uvm k f length prot flags offset).1.vmatable = k.vmatable ∧
    (∀ n, (mmap_run uvm f length prot flags offset n k).vmatable = k.vmatable) ∧
    (∀ t, (mmap uvm { k with vmatable := t } f length prot flags offset).2 =
      (mmap uvm k f length prot flags offset).2) ∧
    (∀ t, mmap_succeeds uvm { k with vmatable := t } f length prot flags ↔
      mmap_succeeds uvm k f length prot flags) ∧
    (∀ t, (mmap uvm { k with vmatable := t } f length prot flags offset).1 =
      { (mmap uvm k f length prot flags offset).1 with vmatable := t }) :=
  ⟨fun i hi => vmaalloc_run_next k hfree i hi, vmaalloc_run_full k hfree,
    mmap_vmatable uvm k f length prot flags offset,
    fun n => mmap_run_vmatable uvm k f length prot flags offset n,
    fun t => mmap_ret_vmatable_irrelevant uvm k t f length prot flags offset,
    fun t => mmap_succeeds_table_irrelevant uvm k t f length prot flags,
    fun t => by rw [mmap_table_frame]⟩

/-- Witness for `vmaalloc_exhaustion`: the table of sixteen free slots. -/
theorem vmaalloc_exhaustion_witness :
    (∀ v ∈ emptyKernel.vmatable, v.valid = 0) ∧
    (vmaalloc (vmaalloc_run 16 emptyKernel)).2 = none :=
  ⟨by decide,
    (vmaalloc_exhaustion uvmalloc_lazy_model emptyKernel fileRW 4096 3 1 0 (by decide)).2.1⟩

/-- Claim C5 fails as stated: starting from a table of sixteen free slots, sixteen
calls of `mmap` succeed, and the seventeenth call succeeds as well and returns the
address 73728 (the table is still free of claims). -/
theorem mmap_after_nvma_calls_counterexample :
    emptyKernel.vmatable.length = 16 ∧
    (∀ v ∈ emptyKernel.vmatable, v.valid = 0) ∧
    (∀ i, i < 16 → mmap_succeeds uvmalloc_lazy_model
      (mmap_run uvmalloc_lazy_model fileRW 4096 3 1 0 i emptyKernel) fileRW 4096 3 1) ∧
    mmap_succeeds uvmalloc_lazy_model
      (mmap_run uvmalloc_lazy_model fileRW 4096 3 1 0 16 emptyKernel) fileRW 4096 3 1 ∧
    (mmap uvmalloc_lazy_model
      (mmap_run uvmalloc_lazy_model fileRW 4096 3 1 0 16 emptyKernel) fileRW 4096 3 1 0).2 = 73728 := by
  decide

end Mmap

namespace Mmap

/-! ## `test_munmap`: the range checks -/

theorem munmap_pages_msg (pt : PageTable) (addr : Nat) (length : Int) (msg : String)
    (h : munmap_pages pt addr length = some msg) :
    msg = "test_munmap: walk" ∨ msg = "test_munmap: not leaf" := by
  induction addr, length using munmap_pages.induct pt with
  | case1 addr length hlen va0 hpt =>
    rw [munmap_pages] at h
    simp only [hlen, if_true] at h
    rw [hpt] at h
    simp only [Option.some.injEq] at h
    exact Or.inl h.symm
  | case2 addr length hlen va0 pte hpt hfl =>
    rw [munmap_pages] at h
    simp only [hlen, if_true] at h
    rw [hpt] at h
    simp only [hfl, if_true, Option.some.injEq] at h
    exact Or.inr h.symm
  | case3 addr length hlen va0 n0 n pte hpt hfl ih =>
    rw [munmap_pages] at h
    simp only [hlen, if_true] at h
    rw [hpt] at h
    simp only [hfl, if_false] at h
    exact ih h
  | case4 addr length hlen =>
    rw [munmap_pages] at h
    simp only [hlen, if_false] at h
    exact Option.noConfusion h

end Mmap

namespace Mmap

theorem u64add_toU64 (a : Nat) (x : Int) :
    ((u64add a (toU64 x) : Nat) : Int) = ((a : Int) + x) % 18446744073709551616 := by
  unfold u64add toU64
  omega

/-- Claim C4: for every VMA whose end `vma.addr + vma.length` does not overflow and
every request `(addr, length > 0)`, `test_munmap` stops at one of its two range
checks if and only if `addr + length` overflows, or the range is not contained in
the range of the VMA, or the range is strictly interior; when it stops there the
state, and so every field of the VMA, is as it was; in particular every strictly
interior request stops at the second check with nothing modified. -/
theorem test_munmap_range_checks (k : Kernel) (vma : Nat) (v : Vma) (addr : Nat) (length : Int)
    (hv : k.vmatable[vma]? = some v)
    (haddr : addr < 18446744073709551616) (hpos : 0 < length) (hint : length < 2147483648)
    (hend0 : 0 ≤ (v.addr : Int) + v.length)
    (hend : (v.addr : Int) + v.length < 18446744073709551616) :
    (((test_munmap k vma addr length).2 = Outcome.panic "test_munmap: uint64 overflow" ∨
      (test_munmap k vma addr length).2 = Outcome.panic "test_munmap: invalid addr range") ↔
      (18446744073709551616 ≤ (addr : Int) + length ∨
        ¬ ((v.addr : Int) ≤ addr ∧ (addr : Int) + length ≤ (v.addr : Int) + v.length) ∨
        ((v.addr : Int) < addr ∧ (addr : Int) + length < (v.addr : Int) + v.length))) ∧
    (((test_munmap k vma addr length).2 = Outcome.panic "test_munmap: uint64 overflow" ∨
      (test_munmap k vma addr length).2 = Outcome.panic "test_munmap: invalid addr range") →
      (test_munmap k vma addr length).1 = k ∧
      (test_munmap k vma addr length).1.vmatable[vma]? = some v) ∧
    (((v.addr : Int) < addr ∧ (addr : Int) + length < (v.addr : Int) + v.length) →
      (test_munmap k vma addr length).2 = Outcome.panic "test_munmap: invalid addr range" ∧
      (test_munmap k vma addr length).1 = k ∧
      (test_munmap k vma addr length).1.vmatable[vma]? = some v) := by
  have hE := u64add_toU64 v.addr v.length
  have hS := u64add_toU64 addr length
  unfold test_munmap
  simp only [hv]
  generalize u64add v.addr (toU64 v.length) = E at hE ⊢
  generalize u64add addr (toU64 length) = S at hS ⊢
  by_cases h1 : S < addr
  · simp only [h1, if_true]
    refine ⟨?_, fun _ => ⟨trivial, hv⟩, ?_⟩
    · simp only [true_or, true_iff]
      omega
    · intro hin
      omega
  · simp only [h1, if_false]
    by_cases h2 : addr < v.addr ∨ (addr > v.addr ∧ S < E) ∨ addr ≥ E ∨ S > E
    · simp only [h2, if_true]
      refine ⟨?_, fun _ => ⟨trivial, hv⟩, fun _ => ⟨trivial, trivial, hv⟩⟩
      simp only [or_true, true_iff]
      omega
    · simp only [h2, if_false]
      have hmsg := munmap_pages_msg k.proc.pagetable addr length
      cases hp : munmap_pages k.proc.pagetable addr length with
      | none =>
        simp only [reduceCtorEq, or_self, false_iff, false_imp_iff, true_and]
        constructor
        · omega
        · intro hin; omega
      | some msg =>
        have hm := hmsg msg hp
        have hne1 : msg ≠ "test_munmap: uint64 overflow" := by
          rcases hm with rfl | rfl <;> decide
        have hne2 : msg ≠ "test_munmap: invalid addr range" := by
          rcases hm with rfl | rfl <;> decide
        simp only [Outcome.panic.injEq, hne1, hne2, or_self, false_iff, false_imp_iff, true_and]
        constructor
        · omega
        · intro hin; omega

end Mmap

namespace Mmap

/-- Witness for `test_munmap_range_checks`: the middle page of the three pages of
`sharedVma` is strictly interior. -/
theorem test_munmap_range_checks_witness :
    (test_munmap sampleKernel 0 12288 4096).2 = Outcome.panic "test_munmap: invalid addr range" ∧
    (test_munmap sampleKernel 0 12288 4096).1.vmatable[0]? = some sharedVma :=
  ⟨((test_munmap_range_checks sampleKernel 0 sharedVma 12288 4096 rfl (by decide) (by decide)
      (by decide) (by decide) (by decide)).2.2 (by decide)).1,
   ((test_munmap_range_checks sampleKernel 0 sharedVma 12288 4096 rfl (by decide) (by decide)
      (by decide) (by decide) (by decide)).2.2 (by decide)).2.2⟩

/-! ## `test_munmap`: the update of the VMA -/

theorem wrapI32_of_isInt (x : Int) (h : IsInt x) : wrapI32 x = x := by
  unfold IsInt at h
  unfold wrapI32 toI32
  split <;> omega

theorem test_munmap_vmatable (k : Kernel) (vma : Nat) (v : Vma) (addr : Nat) (length : Int)
    (hv : k.vmatable[vma]? = some v)
    (h1 : ¬ u64add addr (toU64 length) < addr)
    (h2 : ¬ (addr < v.addr ∨ (addr > v.addr ∧ u64add addr (toU64 length) < u64add v.addr (toU64 v.length))
      ∨ addr ≥ u64add v.addr (toU64 v.length)
      ∨ u64add addr (toU64 length) > u64add v.addr (toU64 v.length))) :
    (test_munmap k vma addr length).1.vmatable = k.vmatable.set vma (munmap_update v addr length) := by
  unfold test_munmap
  simp only [hv, h1, h2, if_false]
  cases munmap_pages k.proc.pagetable addr length <;> rfl

/-- Claim C6, as amended: for every VMA (its `length` an `int`) whose end
`vma.addr + vma.length` does not overflow `uint64` and every request with `addr == vma.addr` and
`0 < length < vma.length`, `test_munmap` leaves the VMA with `addr + length` in
`addr`, `length_old - length` in `length` and the `int` sum `offset + length`,
reduced to the range of `int`, in `offset` (which is `offset + length` whenever that
sum is representable as an `int`); `prot`, `flags`, `fp` and `valid` are unchanged,
and so is every other slot. -/
theorem test_munmap_at_start (k : Kernel) (vma : Nat) (v : Vma) (addr : Nat) (length : Int)
    (hv : k.vmatable[vma]? = some v)
    (haddr : addr = v.addr) (hpos : 0 < length) (hlt : length < v.length)
    (hvlen : IsInt v.length)
    (hend : (v.addr : Int) + v.length < 18446744073709551616) :
    (∃ v', (test_munmap k vma addr length).1.vmatable[vma]? = some v' ∧
      v'.offset = wrapI32 (v.offset + length) ∧
      (IsInt (v.offset + length) → v'.offset = v.offset + length) ∧
      (v'.addr : Int) = (v.addr : Int) + length ∧
      v'.length = v.length - length ∧
      v'.prot = v.prot ∧ v'.flags = v.flags ∧ v'.fp = v.fp ∧ v'.valid = v.valid) ∧
    (∀ j, j ≠ vma → (test_munmap k vma addr length).1.vmatable[j]? = k.vmatable[j]?) := by
  have hE := u64add_toU64 v.addr v.length
  have hS := u64add_toU64 addr length
  have hvl := hvlen
  unfold IsInt at hvl
  have h1 : ¬ u64add addr (toU64 length) < addr := by omega
  have h2 : ¬ (addr < v.addr ∨ (addr > v.addr ∧ u64add addr (toU64 length) < u64add v.addr (toU64 v.length))
      ∨ addr ≥ u64add v.addr (toU64 v.length)
      ∨ u64add addr (toU64 length) > u64add v.addr (toU64 v.length)) := by omega
  have hlen : vma < k.vmatable.length := by
    by_contra hc
    rw [List.getElem?_eq_none (by omega)] at hv
    exact Option.noConfusion hv
  rw [test_munmap_vmatable k vma v addr length hv h1 h2]
  constructor
  · refine ⟨munmap_update v addr length, by simp [hlen], ?_⟩
    unfold munmap_update
    simp only [haddr, if_true]
    rw [haddr] at hS
    refine ⟨trivial, fun hoff => wrapI32_of_isInt _ hoff, by omega, ?_, trivial, trivial,
      trivial, trivial⟩
    generalize u64add v.addr (toU64 v.length) = E at hE ⊢
    generalize u64add v.addr (toU64 length) = S at hS ⊢
    unfold toI32 u64sub
    split <;> omega
  · intro j hj
    rw [List.getElem?_set_ne (Ne.symm hj)]

/-- Witness for `test_munmap_at_start`: the first page of the three pages of
`sharedVma` is unmapped. -/
theorem test_munmap_at_start_witness :
    (∃ v', (test_munmap sampleKernel 0 8192 4096).1.vmatable[0]? = some v' ∧
      v'.offset = wrapI32 (sharedVma.offset + 4096) ∧
      (IsInt (sharedVma.offset + 4096) → v'.offset = sharedVma.offset + 4096) ∧
      (v'.addr : Int) = (sharedVma.addr : Int) + 4096 ∧
      v'.length = sharedVma.length - 4096 ∧
      v'.prot = sharedVma.prot ∧ v'.flags = sharedVma.flags ∧ v'.fp = sharedVma.fp ∧
      v'.valid = sharedVma.valid) :=
  (test_munmap_at_start sampleKernel 0 sharedVma 8192 4096 rfl (by decide) (by decide)
    (by decide) (by decide) (by decide)).1

/-- Claim C6 fails as stated, at two inputs with `addr == vma.addr` and
`0 < length < vma.length`. First, the VMA has the offset 2147479552 and its first
page is unmapped: `offset` becomes -2147483648 and not `offset + length`. Second,
the VMA starts at the last page of the `uint64` range with a length of two pages,
and 100 bytes are unmapped at its start: `test_munmap` stops at the second range
check and the VMA keeps its `addr`, `length` and `offset`. -/
theorem test_munmap_at_start_counterexample :
    (highOffsetKernel.vmatable[0]? = some highOffsetVma ∧
      8192 = highOffsetVma.addr ∧ (0 : Int) < 4096 ∧ 4096 < highOffsetVma.length ∧
      (test_munmap highOffsetKernel 0 8192 4096).1.vmatable[0]? =
        some { highOffsetVma with addr := 12288, length := 8192, offset := -2147483648 } ∧
      (-2147483648 : Int) ≠ highOffsetVma.offset + 4096) ∧
    (wrappingKernel.vmatable[0]? = some wrappingVma ∧
      18446744073709547520 = wrappingVma.addr ∧ (0 : Int) < 100 ∧ 100 < wrappingVma.length ∧
      (test_munmap wrappingKernel 0 18446744073709547520 100).2 =
        Outcome.panic "test_munmap: invalid addr range" ∧
      (test_munmap wrappingKernel 0 18446744073709547520 100).1.vmatable[0]? =
        some wrappingVma ∧
      wrappingVma.addr ≠ 18446744073709547520 + 100) := by
  have h := test_munmap_vmatable highOffsetKernel 0 highOffsetVma 8192 4096 rfl (by decide)
    (by decide)
  have hu : munmap_update highOffsetVma 8192 4096 =
      { highOffsetVma with addr := 12288, length := 8192, offset := -2147483648 } := by decide
  rw [hu] at h
  refine ⟨⟨rfl, by decide, by decide, by decide, ?_, by decide⟩,
    ⟨rfl, by decide, by decide, by decide, by decide, by decide, by decide⟩⟩
  rw [h]
  rfl

end Mmap

namespace Mmap

/-! ## `test_munmap`: the loop over the pages and the end of the function -/

theorem munmap_pages_nonpos (pt : PageTable) (addr : Nat) (length : Int) (h : ¬ 0 < length) :
    munmap_pages pt addr length = none := by
  rw [munmap_pages]
  simp only [h, if_false]

theorem munmap_pages_step (pt : PageTable) (addr : Nat) (length : Int) (pte : Nat)
    (hlen : 0 < length) (hpt : pt (PGROUNDDOWN addr) = some pte) (hfl : PTE_FLAGS pte ≠ PTE_V) :
    munmap_pages pt addr length =
      munmap_pages pt (u64add (PGROUNDDOWN addr) 4096)
        (toI32 (u64sub (toU64 length)
          (if u64sub 4096 (u64sub addr (PGROUNDDOWN addr)) > toU64 length then toU64 length
           else u64sub 4096 (u64sub addr (PGROUNDDOWN addr))))) := by
  rw [munmap_pages]
  simp only [hlen, if_true, hpt, hfl, if_false]

theorem test_munmap_returns (k : Kernel) (vma : Nat) (v : Vma) (addr : Nat) (length : Int)
    (hv : k.vmatable[vma]? = some v)
    (h1 : ¬ u64add addr (toU64 length) < addr)
    (h2 : ¬ (addr < v.addr ∨ (addr > v.addr ∧ u64add addr (toU64 length) < u64add v.addr (toU64 v.length))
      ∨ addr ≥ u64add v.addr (toU64 v.length)
      ∨ u64add addr (toU64 length) > u64add v.addr (toU64 v.length)))
    (hp : munmap_pages k.proc.pagetable addr length = none) :
    test_munmap k vma addr length =
      ({ k with vmatable := k.vmatable.set vma (munmap_update v addr length) }, Outcome.ret 0) := by
  unfold test_munmap
  simp only [hv, h1, h2, if_false, hp]

theorem test_munmap_frame (k : Kernel) (vma : Nat) (addr : Nat) (length : Int) :
    (test_munmap k vma addr length).1.fileData = k.fileData ∧
    (test_munmap k vma addr length).1.mem = k.mem ∧
    (test_munmap k vma addr length).1.calls = k.calls ∧
    (test_munmap k vma addr length).1.proc.sz = k.proc.sz ∧
    (test_munmap k vma addr length).1.proc.pagetable = k.proc.pagetable := by
  unfold test_munmap
  cases k.vmatable[vma]? with
  | none => simp
  | some v =>
    simp only
    split
    · simp
    · split
      · simp
      · cases munmap_pages k.proc.pagetable addr length <;> simp

theorem sample_pages_whole : munmap_pages samplePageTable 8192 12288 = none := by
  rw [munmap_pages_step _ _ _ 278 (by decide) (by decide) (by decide)]
  have e1 : u64add (PGROUNDDOWN 8192) 4096 = 12288 := by decide
  have e2 : (toI32 (u64sub (toU64 12288)
      (if u64sub 4096 (u64sub 8192 (PGROUNDDOWN 8192)) > toU64 12288 then toU64 12288
       else u64sub 4096 (u64sub 8192 (PGROUNDDOWN 8192))))) = 8192 := by decide
  rw [e1, e2, munmap_pages_step _ _ _ 131351 (by decide) (by decide) (by decide)]
  have e3 : u64add (PGROUNDDOWN 12288) 4096 = 16384 := by decide
  have e4 : (toI32 (u64sub (toU64 8192)
      (if u64sub 4096 (u64sub 12288 (PGROUNDDOWN 12288)) > toU64 8192 then toU64 8192
       else u64sub 4096 (u64sub 12288 (PGROUNDDOWN 12288))))) = 4096 := by decide
  rw [e3, e4, munmap_pages_step _ _ _ 278 (by decide) (by decide) (by decide)]
  have e5 : (toI32 (u64sub (toU64 4096)
      (if u64sub 4096 (u64sub 16384 (PGROUNDDOWN 16384)) > toU64 4096 then toU64 4096
       else u64sub 4096 (u64sub 16384 (PGROUNDDOWN 16384))))) = 0 := by decide
  rw [e5]
  exact munmap_pages_nonpos _ _ _ (by decide)

theorem sample_pages_last : munmap_pages samplePageTable 16384 4096 = none := by
  rw [munmap_pages_step _ _ _ 278 (by decide) (by decide) (by decide)]
  have e5 : (toI32 (u64sub (toU64 4096)
      (if u64sub 4096 (u64sub 16384 (PGROUNDDOWN 16384)) > toU64 4096 then toU64 4096
       else u64sub 4096 (u64sub 16384 (PGROUNDDOWN 16384))))) = 0 := by decide
  rw [e5]
  exact munmap_pages_nonpos _ _ _ (by decide)

/-- Claim C7, the code at the failing input: the VMA covers 8192 to 20480 and the
request removes its last page (`addr = 16384`, `length = 4096`, so that
`addr + length` is the end of the VMA); `test_munmap` returns 0 and the VMA is
exactly as before, its `length` still 12288 and not 12288 - 4096. -/
theorem test_munmap_at_end_keeps_length :
    sharedVma.addr < 16384 ∧
    (16384 : Int) + 4096 = (sharedVma.addr : Int) + sharedVma.length ∧
    test_munmap sampleKernel 0 16384 4096 = (sampleKernel, Outcome.ret 0) ∧
    (test_munmap sampleKernel 0 16384 4096).1.vmatable[0]? = some sharedVma ∧
    sharedVma.length ≠ 12288 - 4096 := by
  have h := test_munmap_returns sampleKernel 0 sharedVma 16384 4096 rfl (by decide) (by decide)
    sample_pages_last
  have hu : munmap_update sharedVma 16384 4096 = sharedVma := by decide
  have hk : ({ sampleKernel with vmatable := sampleKernel.vmatable.set 0 sharedVma } : Kernel)
      = sampleKernel := rfl
  rw [hu, hk] at h
  refine ⟨by decide, by decide, h, ?_, by decide⟩
  rw [h]
  rfl

/-- Claim C8, the code at the failing input: `test_munmap` over the whole range of
`sharedVma` returns 0 and leaves the slot with `valid = 1`, `addr = 20480`,
`offset = 12288`, the `prot`, `flags` and `fp` of before and only `length = 0`; no
call of `fileclose` is made. -/
theorem test_munmap_whole_no_teardown :
    (8192 = sharedVma.addr ∧ (12288 : Int) = sharedVma.length) ∧
    (test_munmap sampleKernel 0 8192 12288).2 = Outcome.ret 0 ∧
    (test_munmap sampleKernel 0 8192 12288).1.vmatable[0]? =
      some { valid := 1, addr := 20480, length := 0, prot := 3, flags := 1, fp := some fileRW,
             offset := 12288 } ∧
    (test_munmap sampleKernel 0 8192 12288).1.calls = [] := by
  have h := test_munmap_returns sampleKernel 0 sharedVma 8192 12288 rfl (by decide) (by decide)
    sample_pages_whole
  have hu : munmap_update sharedVma 8192 12288 =
      { valid := 1, addr := 20480, length := 0, prot := 3, flags := 1, fp := some fileRW,
        offset := 12288 } := by decide
  rw [hu] at h
  refine ⟨⟨by decide, by decide⟩, ?_, ?_, ?_⟩ <;> rw [h] <;> rfl

/-- Claim C3, the code at the failing input: `sharedVma` is valid, `MAP_SHARED` and
`PROT_WRITE`; its second page is faulted in (`PTE_V` set) and byte 1 of its frame
holds the marker 77, written through the mapping; `test_munmap` over the whole
range returns 0 and the file still holds 0, not 77, at the offset
`vma.offset + (12288 - vma.addr) + 1 = 4097`. -/
theorem test_munmap_shared_no_writeback :
    (sharedVma.valid = 1 ∧ bits32 sharedVma.flags &&& MAP_SHARED ≠ 0 ∧
      bits32 sharedVma.prot &&& PROT_WRITE ≠ 0 ∧ sharedVma.fp = some fileRW) ∧
    (samplePageTable 12288 = some 131351 ∧ 131351 &&& PTE_V ≠ 0 ∧
      sampleKernel.mem (PTE2PA 131351 + 1) = 77) ∧
    (test_munmap sampleKernel 0 8192 12288).2 = Outcome.ret 0 ∧
    (test_munmap sampleKernel 0 8192 12288).1.fileData fileRW.ip 4097 = 0 ∧
    (test_munmap sampleKernel 0 8192 12288).1.fileData fileRW.ip 4097 ≠
      sampleKernel.mem (PTE2PA 131351 + 1) := by
  have h := test_munmap_returns sampleKernel 0 sharedVma 8192 12288 rfl (by decide) (by decide)
    sample_pages_whole
  have hf := (test_munmap_frame sampleKernel 0 8192 12288).1
  refine ⟨by decide, by decide, ?_, ?_, ?_⟩
  · rw [h]
  · rw [hf]; rfl
  · rw [hf]; decide

/-! ## `vmaclose` -/

theorem vmaclose_valid (k : Kernel) (ma : Nat) :
    (vmaclose k ma).vmatable.map (fun v => v.valid) = k.vmatable.map (fun v => v.valid) := by
  unfold vmaclose
  cases h : k.vmatable[ma]? with
  | none => rfl
  | some v =>
    simp only
    apply List.ext_getElem?
    intro i
    by_cases hi : i = ma
    · subst hi
      simp only [List.getElem?_map, h, Option.map_some']
      rw [List.getElem?_set]
      simp only [if_true]
      split
      · simp [vmaclose_fields]
      · rename_i hlt
        exfalso
        have hlen := (List.getElem?_eq_some_iff.mp h).1
        exact hlt hlen
    · simp only [List.getElem?_map]
      rw [List.getElem?_set_ne (Ne.symm hi)]

theorem vmaclose_full_stays_full (k : Kernel) (ma : Nat)
    (hfull : ∀ v ∈ k.vmatable, v.valid ≠ 0) :
    (vmaalloc (vmaclose k ma)).2 = none := by
  have hall : ∀ v ∈ (vmaclose k ma).vmatable, v.valid ≠ 0 := by
    intro v hv
    have hm : v.valid ∈ (vmaclose k ma).vmatable.map (fun v => v.valid) :=
      List.mem_map.mpr ⟨v, hv, rfl⟩
    rw [vmaclose_valid] at hm
    obtain ⟨w, hw, hwv⟩ := List.mem_map.mp hm
    rw [← hwv]
    exact hfull w hw
  unfold vmaalloc
  rw [(vmaalloc_scan_none _).mpr hall]

/-- Claim C10, the code at the failing input: both slots of the table are in use;
`vmaclose` of slot 0 calls `fileclose` on its file and clears `fp`, `addr`, `flags`,
`prot`, `length` and `offset`, but `valid` is still 1, and the call of `vmaalloc`
that follows returns the null pointer and not slot 0. -/
theorem vmaclose_keeps_slot_claimed :
    (∀ v ∈ fullKernel.vmatable, v.valid ≠ 0) ∧
    (vmaclose fullKernel 0).calls = [Call.fileclose (some fileRW)] ∧
    (vmaclose fullKernel 0).vmatable[0]? =
      some { valid := 1, addr := 0, length := 0, prot := 0, flags := 0, fp := none, offset := 0 } ∧
    (vmaalloc (vmaclose fullKernel 0)).2 = none := by
  decide

end Mmap

namespace Mmap

/-! ## General forms of the evaluated cases -/

theorem munmap_update_keeps (v : Vma) (addr : Nat) (length : Int) :
    (munmap_update v addr length).valid = v.valid ∧
    (munmap_update v addr length).fp = v.fp ∧
    (munmap_update v addr length).prot = v.prot ∧
    (munmap_update v addr length).flags = v.flags := by
  unfold munmap_update
  simp only
  split
  · exact ⟨rfl, rfl, rfl, rfl⟩
  · split
    · exact ⟨rfl, rfl, rfl, rfl⟩
    · exact ⟨rfl, rfl, rfl, rfl⟩

theorem munmap_update_at_end (v : Vma) (addr : Nat) (length : Int)
    (hgt : v.addr < addr) (hvpos : 0 < v.addr) (hpos : 0 < length)
    (hsum : (addr : Int) + length = (v.addr : Int) + v.length)
    (hend : (v.addr : Int) + v.length < 18446744073709551616) :
    munmap_update v addr length = v := by
  have hE := u64add_toU64 v.addr v.length
  have hS := u64add_toU64 addr length
  have hne : addr ≠ v.addr := by omega
  have hne2 : u64add addr (toU64 length) ≠ u64add v.addr (u64add v.addr (toU64 v.length)) := by
    generalize u64add v.addr (toU64 v.length) = E at hE ⊢
    generalize u64add addr (toU64 length) = S at hS ⊢
    unfold u64add
    omega
  unfold munmap_update
  simp only [hne, hne2, if_false]

end Mmap
